import Mathlib

/-!
Verification of the refine-apito data provider core (src/provider.ts):
shallow embedding of the error classifier, filter compiler, document
synthesizer variable handling, and response normalizer, together with
theorems settling the specification claims.
-/

namespace Apito

/-- Normalized error shape (`HttpError` from refine): message plus numeric status code. -/
structure HttpError where
  message : String
  statusCode : Int
deriving DecidableEq, Repr

/-- Protocol-level GraphQL error (urql `GraphQLError`): carries a string message. -/
structure GQLErr where
  message : String
deriving DecidableEq, Repr

/-- Network-level failure attached to a urql `CombinedError`. The provider reads
`(networkError as any).statusCode` and `.status`, either of which may be absent. -/
structure NetErr where
  statusCode : Option Int
  status : Option Int
  message : String
deriving DecidableEq, Repr

/-- urql `CombinedError`: optional network failure, list of protocol errors, message. -/
structure CombinedError where
  networkError : Option NetErr
  graphQLErrors : List GQLErr
  message : String
deriving DecidableEq, Repr

/-- JavaScript `a || b` on an optional number: a falsy left operand (absent or 0)
falls through to the right operand. -/
def jsOrNum (a b : Option Int) : Option Int :=
  match a with
  | some n => if n = 0 then b else some n
  | none => b

/-- The embedded status of a network error, per
`(error.networkError as any).statusCode || (error.networkError as any).status`. -/
def netStatus (ne : NetErr) : Option Int :=
  jsOrNum ne.statusCode ne.status

/-- Does the char list `hay` begin with `needle`? (helper for substring search). -/
def leadsWith : List Char → List Char → Bool
  | [], _ => true
  | _ :: _, [] => false
  | a :: s, b :: t => a = b && leadsWith s t

/-- Does `hay` contain `needle` as a contiguous run? (JavaScript `String.includes`). -/
def hasSub (needle : List Char) : List Char → Bool
  | [] => leadsWith needle []
  | c :: t => leadsWith needle (c :: t) || hasSub needle t

/-- JavaScript `hay.includes(needle)` on strings. -/
def hasSubstr (hay needle : String) : Bool :=
  hasSub needle.data hay.data

/-- `String.toLowerCase` (ASCII case mapping; all scanned keywords are ASCII). -/
def lowerStr (s : String) : String :=
  String.mk (s.data.map Char.toLower)

/-- `String.toUpperCase` (ASCII case mapping; resource names and sort orders
are ASCII). -/
def upperStr (s : String) : String :=
  String.mk (s.data.map Char.toUpper)

/-- `Array.prototype.join(sep)` over already-stringified parts. -/
def joinSep (sep : String) : List String → String
  | [] => ""
  | [s] => s
  | s :: rest => s ++ sep ++ joinSep sep rest

/-- The five authentication keywords scanned for in GraphQL error messages. -/
def authKeywords : List String :=
  ["unauthorized", "forbidden", "token", "authentication", "authorization"]

/-- Does a single message, lower-cased, contain one of the auth keywords?
Models the five chained `err.message.toLowerCase().includes(...)` tests. -/
def msgHasAuth (m : String) : Bool :=
  authKeywords.any (fun kw => hasSubstr (lowerStr m) kw)

/-- `error.graphQLErrors.some((err) => ...)` over the keyword tests. -/
def hasAuthError (errs : List GQLErr) : Bool :=
  errs.any (fun e => msgHasAuth e.message)

/-- `error.graphQLErrors.map((err) => err.message).join(", ")`. -/
def joinMsgs (errs : List GQLErr) : String :=
  joinSep ", " (errs.map GQLErr.message)

/-- The error classifier `handleGraphQLError` (provider.ts lines 860-929).
The `Bool` argument records whether the optional `onTokenExpired` callback was
supplied at the call site; the `Nat` component of the result counts how many
times that callback is invoked during the call. -/
def handleGraphQLError (error : Option CombinedError) (cb : Bool) : HttpError × Nat :=
  match error with
  | none => ({ message := "Unknown error occurred", statusCode := 500 }, 0)
  | some err =>
    match err.networkError with
    | some ne =>
      if netStatus ne = some 403 ∨ netStatus ne = some 401 then
        ({ message := "Token expired. Please login again.", statusCode := 403 },
         if cb then 1 else 0)
      else
        ({ message := "Network error: " ++ ne.message,
           statusCode := match netStatus ne with
             | some n => if n = 0 then 503 else n
             | none => 503 }, 0)
    | none =>
      if err.graphQLErrors.length > 0 then
        if hasAuthError err.graphQLErrors then
          ({ message := "Authentication failed. Please login again.", statusCode := 403 },
           if cb then 1 else 0)
        else
          ({ message := joinMsgs err.graphQLErrors, statusCode := 400 }, 0)
      else
        ({ message := if err.message = "" then "An error occurred during the GraphQL operation"
                      else err.message,
           statusCode := 400 }, 0)

/-! ## Filter compiler (provider.ts lines 1022-1147) -/

mutual
/-- Runtime value of a filter condition's `value` slot: a scalar, absent
(`undefined`), or an array of sub-conditions (the shapes the compiler inspects;
any non-array value is treated opaquely by the source). -/
inductive FVal where
  | undef : FVal
  | str : String → FVal
  | num : Int → FVal
  | bool : Bool → FVal
  | arr : List Cond → FVal

/-- A refine `CrudFilter` as the provider destructures it:
`{ field, operator, value }`, where field and operator may be absent at runtime
(partial form input, or the `ConditionalFilter` shape which has no field). -/
inductive Cond where
  | mk : Option String → Option String → FVal → Cond
end

/-- Field accessor of a condition. -/
def Cond.field : Cond → Option String
  | Cond.mk f _ _ => f

/-- Operator accessor of a condition. -/
def Cond.op : Cond → Option String
  | Cond.mk _ o _ => o

/-- Value accessor of a condition. -/
def Cond.value : Cond → FVal
  | Cond.mk _ _ v => v

/-- Values stored inside the compiled where-tree: either a raw condition value
placed at a leaf, or a nested object. -/
inductive OVal where
  | prim : FVal → OVal
  | node : List (String × OVal) → OVal

/-- A JavaScript object with `OVal` values, in insertion order. -/
abbrev WObj := List (String × OVal)

/-- Lookup of a key in an object (`undefined` is modelled as `none`). -/
def getK {α : Type} : List (String × α) → String → Option α
  | [], _ => none
  | (k, v) :: t, key => if k = key then some v else getK t key

/-- JavaScript property assignment `o[k] = v`: update in place if the key
exists (keeping its position), otherwise append. -/
def setK {α : Type} : List (String × α) → String → α → List (String × α)
  | [], key, v => [(key, v)]
  | (k, w) :: t, key, v => if k = key then (key, v) :: t else (k, w) :: setK t key v

/-- `Object.assign(target, src)`: fold the assignments of `src` into `target`. -/
def mergeK {α : Type} (target src : List (String × α)) : List (String × α) :=
  src.foldl (fun acc kv => setK acc kv.1 kv.2) target

/-- JavaScript truthiness of an optional string (absent or empty is falsy). -/
def truthyS : Option String → Bool
  | some s => !(s == "")
  | none => false

/-- Is the value the `undefined` scalar? -/
def isUndef : FVal → Bool
  | FVal.undef => true
  | _ => false

/-- `Array.isArray(value)`. -/
def isArr : FVal → Bool
  | FVal.arr _ => true
  | _ => false

/-- The sub-conditions of an array value (only read under an `isArr` guard). -/
def elemsOf : FVal → List Cond
  | FVal.arr cs => cs
  | _ => []

/-- JavaScript computed object key `{ [field]: ... }`: an absent field is
coerced to the string "undefined". -/
def keyStr : Option String → String
  | some s => s
  | none => "undefined"

/-- The string under a truthy optional string (only read under truthiness). -/
def strOf : Option String → String
  | some s => s
  | none => ""

/-- `operator || "eq"`: a falsy operator (absent or empty) defaults to `eq`. -/
def opOrEq : Option String → String
  | some s => if s == "" then "eq" else s
  | none => "eq"

/-- `field.startsWith("data.") ? field.replace("data.", "") : field`
(the guard makes the replace a prefix strip). -/
def stripData (f : String) : String :=
  if leadsWith "data.".data f.data then String.mk (f.data.drop 5) else f

/-- Remove the first occurrence of `needle` from a char list
(JavaScript `String.replace(needle, "")`). -/
def dropSubOnce (needle : List Char) : List Char → List Char
  | [] => []
  | c :: t => if leadsWith needle (c :: t) then (c :: t).drop needle.length
              else c :: dropSubOnce needle t

/-- JavaScript `String.split(".")`: split on every dot, keeping empty parts
(the empty string splits to `[""]`). -/
def splitDotAux (cur : List Char) : List Char → List String
  | [] => [String.mk cur.reverse]
  | c :: t => if c = '.' then String.mk cur.reverse :: splitDotAux [] t
              else splitDotAux (c :: cur) t

/-- `s.split(".")` on a char list. -/
def splitDot (s : List Char) : List String :=
  splitDotAux [] s

/-- One iteration of the nested-condition builder in the `eq`-with-array branch
(lines 1030-1042): a sub-condition with truthy field/operator and defined value
writes `nested[subField][subOperator] = subValue`. -/
def nestedEqStep (acc : WObj) (c : Cond) : WObj :=
  match c with
  | Cond.mk f o v =>
    if truthyS f && truthyS o && !(isUndef v) then
      let key := keyStr f
      let cur : WObj := match getK acc key with
        | some (OVal.node fs) => fs
        | _ => []
      setK acc key (OVal.node (setK cur (strOf o) (OVal.prim v)))
    else acc

/-- One iteration of the OR/AND builder (lines 1049-1058 and 1065-1074):
each valid sub-condition contributes `{ adjustedField: { operator: value } }`. -/
def orAndStep (acc : WObj) (c : Cond) : WObj :=
  match c with
  | Cond.mk f o v =>
    if truthyS f && truthyS o && !(isUndef v) then
      setK acc (stripData (strOf f)) (OVal.node [(strOf o, OVal.prim v)])
    else acc

/-- The nested relation-path builder (lines 1084-1102): intermediate path parts
become nested objects; the leaf is set only when operator is truthy and value
is defined. -/
def buildRelPath (o : Option String) (v : FVal) : List String → WObj
  | [] => []
  | [last] => if truthyS o && !(isUndef v)
              then [(last, OVal.node [(strOf o, OVal.prim v)])]
              else []
  | p :: rest => [(p, OVal.node (buildRelPath o v rest))]

/-- `processFilter` (lines 1023-1114). Returns `none` when the source would
throw: the regular-field branch calls `field.startsWith` on an absent field. -/
def processFilter : Cond → Option WObj
  | Cond.mk f o v =>
    if o == some "eq" && isArr v then
      some [(keyStr f, OVal.node ((elemsOf v).foldl nestedEqStep []))]
    else if o == some "or" && isArr v then
      some [("OR", OVal.node ((elemsOf v).foldl orAndStep []))]
    else if o == some "and" && isArr v then
      some [("AND", OVal.node ((elemsOf v).foldl orAndStep []))]
    else if f == some "_key" then
      some [("_key", OVal.node [(opOrEq o, OVal.prim v)])]
    else if truthyS f && hasSubstr (strOf f) "relation." then
      some [("relation",
             OVal.node (buildRelPath o v
               (splitDot (dropSubOnce "relation.".data (strOf f).data))))]
    else if truthyS o && !(isUndef v) then
      match f with
      | some ff => some [(stripData ff, OVal.node [(strOf o, OVal.prim v)])]
      | none => none
    else
      some []

/-- The accumulated output of filter processing in `getList` (lines 1117-1119):
the `where` object, the extracted `_key` condition, and the relation condition. -/
structure FilterOut where
  whereO : WObj
  keyCond : Option OVal
  relWhere : Option WObj

/-- JavaScript truthiness of a where-tree value (objects are always truthy). -/
def truthyO : OVal → Bool
  | OVal.prim w => match w with
    | FVal.undef => false
    | FVal.str s => !(s == "")
    | FVal.num n => !(n == 0)
    | FVal.bool b => b
    | FVal.arr _ => true
  | OVal.node _ => true

/-- Truthiness of `processed[key]`. -/
def truthyGet (o : WObj) (key : String) : Bool :=
  match getK o key with
  | some v => truthyO v
  | none => false

/-- `processed[key]`, read under a truthiness guard. -/
def jsGetW (o : WObj) (key : String) : OVal :=
  match getK o key with
  | some v => v
  | none => OVal.prim FVal.undef

/-- `Object.assign(target, src)` where `src` is a where-tree value (always a
node at the call sites). -/
def assignW (target : WObj) (src : OVal) : WObj :=
  match src with
  | OVal.node fs => mergeK target fs
  | OVal.prim _ => target

/-- One iteration of the filter dispatch loop (lines 1122-1146): extract `_key`,
merge `relation`, overwrite `OR`/`AND`, otherwise merge into `where`. -/
def stepFilter (st : FilterOut) (processed : WObj) : FilterOut :=
  if truthyGet processed "_key" then
    { st with keyCond := some (jsGetW processed "_key") }
  else if truthyGet processed "relation" then
    let base := match st.relWhere with | some r => r | none => []
    { st with relWhere := some (assignW base (jsGetW processed "relation")) }
  else if truthyGet processed "OR" then
    { st with whereO := setK st.whereO "OR" (jsGetW processed "OR") }
  else if truthyGet processed "AND" then
    { st with whereO := setK st.whereO "AND" (jsGetW processed "AND") }
  else
    { st with whereO := mergeK st.whereO processed }

/-- The filters loop; `none` models an exception escaping `forEach`. -/
def compileAux : FilterOut → List Cond → Option FilterOut
  | st, [] => some st
  | st, c :: cs =>
    match processFilter c with
    | none => none
    | some p => compileAux (stepFilter st p) cs

/-- Compile a filter list into `(where, _key, relationWhere)`, starting from
`where = {}`, `_key = null`, `relationWhere = null` (lines 1117-1147). -/
def compileFilters (fs : List Cond) : Option FilterOut :=
  compileAux { whereO := [], keyCond := none, relWhere := none } fs

/-! ## Document synthesizer: conditional variable declarations (lines 1149-1241) -/

/-- The synthesized getList document's variable-declaration list
(lines 1152-1174): the `$_key`, `$relationWhere`, `$_keyCount` and
`$relationWhereCount` declarations are emitted only under `hasKey` /
`hasRelationWhere`; `.filter(Boolean)` drops the null placeholders. -/
def listQueryVarDecls (resource : String) (hasKey hasRelationWhere : Bool) : List String :=
  ([ if hasKey then some ("$_key: " ++ upperStr resource ++ "LIST_KEY_CONDITION") else none,
     some ("$connection: " ++ upperStr resource ++ "_CONNECTION_FILTER_CONDITION"),
     some ("$where: " ++ upperStr resource ++ "LIST_INPUT_WHERE_PAYLOAD"),
     if hasRelationWhere
       then some ("$relationWhere: " ++ upperStr resource ++ "_WHERE_RELATION_FILTER_CONDITION")
       else none,
     if hasKey then some ("$_keyCount: " ++ upperStr resource ++ "LIST_COUNT_KEY_CONDITION")
       else none,
     some ("$whereCount: " ++ upperStr resource ++ "LIST_COUNT_INPUT_WHERE_PAYLOAD"),
     if hasRelationWhere
       then some ("$relationWhereCount: " ++ upperStr resource ++ "_WHERE_RELATION_FILTER_CONDITION")
       else none,
     some ("$sort: " ++ upperStr resource ++ "LIST_INPUT_SORT_PAYLOAD"),
     some "$page: Int",
     some "$limit: Int",
     some "$local: LOCAL_TYPE_ENUM" ] : List (Option String)).filterMap id

/-- The argument list of the list selection (lines 1176-1187). -/
def listQueryArgs (hasKey hasRelationWhere : Bool) : List String :=
  ([ if hasKey then some "_key: $_key" else none,
     some "connection: $connection",
     some "where: $where",
     if hasRelationWhere then some "relation: $relationWhere" else none,
     some "sort: $sort",
     some "page: $page",
     some "limit: $limit",
     some "local: $local" ] : List (Option String)).filterMap id

/-- The argument list of the count selection (lines 1189-1198). -/
def listCountArgs (hasKey hasRelationWhere : Bool) : List String :=
  ([ if hasKey then some "_key: $_keyCount" else none,
     some "connection: $connection",
     some "where: $whereCount",
     if hasRelationWhere then some "relation: $relationWhereCount" else none,
     some "page: $page",
     some "limit: $limit" ] : List (Option String)).filterMap id

/-- A refine `CrudSort` entry as destructured by the provider. -/
structure Sorter where
  field : Option String
  order : Option String
deriving DecidableEq, Repr

/-- One iteration of `sorters?.reduce` (lines 1230-1236): a truthy field and
order write `acc[field] = order.toUpperCase()`. -/
def sortStep (acc : List (String × String)) (s : Sorter) : List (String × String) :=
  match s.field, s.order with
  | some f, some o => if f == "" || o == "" then acc else setK acc f (upperStr o)
  | _, _ => acc

/-- The compiled sort mapping. -/
def compileSort (ss : List Sorter) : List (String × String) :=
  ss.foldl sortStep []

/-- A refine pagination object as read by the provider. -/
structure Pagination where
  current : Option Int
  page : Option Int
  pageSize : Option Int
  size : Option Int
deriving DecidableEq, Repr

/-- JavaScript `a || d` on an optional number with a numeric default. -/
def numOr (a : Option Int) (d : Int) : Int :=
  match a with
  | some n => if n = 0 then d else n
  | none => d

/-- The variables payload of the synthesized getList document (lines 1222-1241).
Conditionally-spread entries (`...(hasKey && { _key })` and the relation pair)
are modelled as optional fields, present exactly when spread. -/
structure ListVars where
  keyVar : Option OVal
  connection : WObj
  whereVar : WObj
  relWhereVar : Option WObj
  whereCount : WObj
  keyCountVar : Option OVal
  relWhereCountVar : Option WObj
  sortVar : Option (List (String × String))
  page : Int
  limit : Int

/-- Build the getList variables payload from the compiled filters, the
`meta.reverseLookup` seed, the sorters and the pagination. -/
def buildListVars (fo : FilterOut) (reverseLookup : Option WObj)
    (sorters : Option (List Sorter)) (pagination : Option Pagination) : ListVars :=
  { keyVar := fo.keyCond
  , connection := match reverseLookup with | some r => r | none => []
  , whereVar := fo.whereO
  , relWhereVar := fo.relWhere
  , whereCount := fo.whereO
  , keyCountVar := fo.keyCond
  , relWhereCountVar := fo.relWhere
  , sortVar := sorters.map compileSort
  , page := numOr (pagination.bind Pagination.current) (numOr (pagination.bind Pagination.page) 1)
  , limit := numOr (pagination.bind Pagination.pageSize) (numOr (pagination.bind Pagination.size) 10) }

/-! ## Response normalizer and operation boundaries -/

/-- A JSON-like runtime value of a backend response (or of a thrown object). -/
inductive RVal where
  | undef : RVal
  | rnull : RVal
  | str : String → RVal
  | num : Int → RVal
  | bool : Bool → RVal
  | arr : List RVal → RVal
  | obj : List (String × RVal) → RVal

/-- A response object: string keys in order. -/
abbrev RObj := List (String × RVal)

/-- JavaScript property read `o[k]` (missing keys give `undefined`). -/
def rGetV (o : RObj) (key : String) : RVal :=
  match getK o key with
  | some v => v
  | none => RVal.undef

/-- JavaScript truthiness of a response value. -/
def rTruthy : RVal → Bool
  | RVal.undef => false
  | RVal.rnull => false
  | RVal.str s => !(s == "")
  | RVal.num n => !(n == 0)
  | RVal.bool b => b
  | RVal.arr _ => true
  | RVal.obj _ => true

/-- Property read on an arbitrary value: objects look keys up, other non-nullish
values have no such properties (`undefined`); reads on `null`/`undefined` would
throw and are only performed behind guards in the source. -/
def propGetR (v : RVal) (key : String) : RVal :=
  match v with
  | RVal.obj fs => rGetV fs key
  | _ => RVal.undef

/-- `resource.charAt(0).toUpperCase() + resource.slice(1)`. -/
def capFirst (s : String) : String :=
  String.mk (match s.data with
    | [] => []
    | c :: t => c.toUpper :: t)

/-- The value at `response.data?.[resource + "ListCount"]` (line 1256). -/
def countValOf (resource : String) (d : Option RObj) : RVal :=
  match d with
  | none => RVal.undef
  | some o => rGetV o (resource ++ "ListCount")

/-- `"total" in (response?.data?.[countKey] || {}) ? (...).total : 0`
(lines 1255-1259). Returns `none` when the source would throw: the `in`
operator applied to a truthy primitive. -/
def listTotalOf (resource : String) (d : Option RObj) : Option RVal :=
  match countValOf resource d with
  | RVal.obj fs => some (if (getK fs "total").isSome then rGetV fs "total" else RVal.num 0)
  | RVal.arr _ => some (RVal.num 0)
  | RVal.undef => some (RVal.num 0)
  | RVal.rnull => some (RVal.num 0)
  | RVal.num n => if n = 0 then some (RVal.num 0) else none
  | RVal.str s => if s = "" then some (RVal.num 0) else none
  | RVal.bool b => if b then none else some (RVal.num 0)

/-- `(response?.data?.[resource + "List"] ?? []) as TData[]` (lines 1253-1254):
nullish values default to the empty array, everything else is cast unchecked. -/
def listDataOf (resource : String) (d : Option RObj) : RVal :=
  match (match d with | none => RVal.undef | some o => rGetV o (resource ++ "List")) with
  | RVal.undef => RVal.arr []
  | RVal.rnull => RVal.arr []
  | v => v

/-- Success-path normalization of getList: the `meta.gqlQuery` branch
(lines 990-1015) extracts `response.data[queryKey]`, keeps it only when it is
an array, and reports its length as the total; the synthesized branch
(lines 1253-1265) reads the list and the count selection independently.
`none` models a thrown exception (handled by the surrounding catch). -/
def getListNormalize (useGqlQuery : Bool) (queryKey : Option String)
    (resource : String) (d : Option RObj) : Option (RVal × RVal) :=
  if useGqlQuery then
    let qk := match queryKey with
      | some s => if s = "" then resource else s
      | none => resource
    let qr := match d with | none => RVal.undef | some o => rGetV o qk
    some (match qr with | RVal.arr items => RVal.arr items | _ => RVal.arr [],
          RVal.num (match qr with | RVal.arr items => (items.length : Int) | _ => 0))
  else
    (listTotalOf resource d).map (fun t => (listDataOf resource d, t))

/-- `err.message` extraction for one element of the payload-embedded `errors`
array, which the source casts to `ApitoGraphQLError[]` (`message: string`,
types.ts). String messages are taken as is; `Array.prototype.join` renders a
missing message (`undefined`) as the empty string and stringifies other
primitives. -/
def errMessage (e : RVal) : String :=
  match propGetR e "message" with
  | RVal.str s => s
  | RVal.num n => toString n
  | RVal.bool b => if b then "true" else "false"
  | _ => ""

/-- `(response.data.errors as ApitoGraphQLError[]).map((err) => err.message).join(", ")`. -/
def joinErrMessages (items : List RVal) : String :=
  joinSep ", " (items.map errMessage)

/-- The value at `response.data?.errors`. -/
def errorsValOf (d : Option RObj) : RVal :=
  match d with
  | none => RVal.undef
  | some o => rGetV o "errors"

/-- Single-entity extraction `(response?.data?.[key] as SingleResponseType)?.data ?? {}`. -/
def singleDataOf (key : String) (d : Option RObj) : RVal :=
  match (match d with | none => RVal.undef | some o => rGetV o key) with
  | RVal.obj fs =>
    match rGetV fs "data" with
    | RVal.undef => RVal.obj []
    | RVal.rnull => RVal.obj []
    | w => w
  | _ => RVal.obj []

/-- The post-transport outcome of `deleteOne` (lines 1612-1643): classify a
transport error; otherwise reject when `response.data?.errors` is an array
(line 1624, `Array.isArray` with no emptiness check); otherwise succeed with
the extracted record. The `Nat` counts session-expiry callback invocations. -/
def deleteOneOutcome (resource : String) (error : Option CombinedError) (cb : Bool)
    (d : Option RObj) : Except HttpError RVal × Nat :=
  match error with
  | some _ =>
    let r := handleGraphQLError error cb
    (Except.error r.1, r.2)
  | none =>
    match errorsValOf d with
    | RVal.arr items =>
      (Except.error { message := joinErrMessages items, statusCode := 400 }, 0)
    | _ => (Except.ok (singleDataOf ("delete" ++ capFirst resource) d), 0)

/-- The post-transport outcome of `custom` (lines 1735-1758): same
payload-embedded errors check as `deleteOne`, then the whole `response?.data`
is returned as the result. -/
def customOutcome (error : Option CombinedError) (cb : Bool)
    (d : Option RObj) : Except HttpError RVal × Nat :=
  match error with
  | some _ =>
    let r := handleGraphQLError error cb
    (Except.error r.1, r.2)
  | none =>
    match errorsValOf d with
    | RVal.arr items =>
      (Except.error { message := joinErrMessages items, statusCode := 400 }, 0)
    | _ => (Except.ok (match d with | some o => RVal.obj o | none => RVal.undef), 0)

/-- Error classification on the `meta.gqlMutation` paths of `create`
(line 1354) and `update` (line 1518): `handleGraphQLError(response.error)` is
called with the callback argument omitted. -/
def gqlMutationClassify (err : CombinedError) : HttpError × Nat :=
  handleGraphQLError (some err) false

/-- The operation-boundary catch handler shared by every public operation
(e.g. lines 1266-1275, 1644-1655): a caught value whose `statusCode` property
is not `undefined` is re-rejected unchanged; otherwise it is wrapped as
`{ message: error?.message || default, statusCode: 500 }`. `none` models the
property access throwing on a caught `null`/`undefined`. -/
def catchHandler (defaultMsg : String) (e : RVal) : Option RVal :=
  match e with
  | RVal.rnull => none
  | RVal.undef => none
  | _ =>
    match propGetR e "statusCode" with
    | RVal.undef =>
      some (RVal.obj
        [("message", if rTruthy (propGetR e "message") then propGetR e "message"
                     else RVal.str defaultMsg),
         ("statusCode", RVal.num 500)])
    | _ => some e

/-! ## Helper lemmas about the error classifier -/

theorem handle_none_eq (cb : Bool) :
    handleGraphQLError none cb = ({ message := "Unknown error occurred", statusCode := 500 }, 0) :=
  rfl

theorem handle_net_auth (err : CombinedError) (ne : NetErr) (cb : Bool)
    (hne : err.networkError = some ne)
    (h : netStatus ne = some 401 ∨ netStatus ne = some 403) :
    handleGraphQLError (some err) cb
      = ({ message := "Token expired. Please login again.", statusCode := 403 },
         if cb then 1 else 0) := by
  obtain ⟨nw, gl, m⟩ := err
  dsimp only at hne
  subst hne
  simp only [handleGraphQLError]
  rw [if_pos (h.elim (fun x => Or.inr x) (fun x => Or.inl x))]

theorem handle_net_other (err : CombinedError) (ne : NetErr) (cb : Bool)
    (hne : err.networkError = some ne)
    (h : ¬(netStatus ne = some 401 ∨ netStatus ne = some 403)) :
    handleGraphQLError (some err) cb
      = ({ message := "Network error: " ++ ne.message,
           statusCode := match netStatus ne with
             | some n => if n = 0 then 503 else n
             | none => 503 }, 0) := by
  obtain ⟨nw, gl, m⟩ := err
  dsimp only at hne
  subst hne
  simp only [handleGraphQLError]
  rw [if_neg (fun x => h (x.elim (fun y => Or.inr y) (fun y => Or.inl y)))]

theorem handle_gql_auth (err : CombinedError) (cb : Bool)
    (hnw : err.networkError = none)
    (hne : err.graphQLErrors ≠ [])
    (h : hasAuthError err.graphQLErrors = true) :
    handleGraphQLError (some err) cb
      = ({ message := "Authentication failed. Please login again.", statusCode := 403 },
         if cb then 1 else 0) := by
  obtain ⟨nw, gl, m⟩ := err
  dsimp only at hnw hne h
  subst hnw
  simp only [handleGraphQLError]
  rw [if_pos (List.length_pos.mpr hne), if_pos h]

theorem handle_gql_other (err : CombinedError) (cb : Bool)
    (hnw : err.networkError = none)
    (hne : err.graphQLErrors ≠ [])
    (h : hasAuthError err.graphQLErrors = false) :
    handleGraphQLError (some err) cb
      = ({ message := joinMsgs err.graphQLErrors, statusCode := 400 }, 0) := by
  obtain ⟨nw, gl, m⟩ := err
  dsimp only at hnw hne h
  subst hnw
  simp only [handleGraphQLError]
  rw [if_pos (List.length_pos.mpr hne), if_neg (by simp [h])]

theorem handle_snd_nocb (e : Option CombinedError) :
    (handleGraphQLError e false).2 = 0 := by
  match e with
  | none => rfl
  | some ⟨some ne, gl, m⟩ =>
    by_cases hc : netStatus ne = some 403 ∨ netStatus ne = some 401
    · simp [handleGraphQLError, if_pos hc]
    · simp [handleGraphQLError, if_neg hc]
  | some ⟨none, gl, m⟩ =>
    by_cases hl : gl.length > 0
    · by_cases ha : hasAuthError gl = true
      · simp [handleGraphQLError, if_pos hl, if_pos ha]
      · simp [handleGraphQLError, if_pos hl, if_neg ha]
    · simp [handleGraphQLError, if_neg hl]

/-- C1: the error classifier, given the failed call's error object and an
optional session-expiry callback, follows the claimed decision order: absent
error gives the generic 500; a network failure with embedded status 401/403
invokes the callback once (when supplied) and yields the token-expired 403,
taking precedence over any protocol errors also present; any other network
failure yields "Network error: detail" with the embedded (nonzero) status or
503; otherwise protocol errors whose messages contain an auth keyword
(case-insensitively) invoke the callback once and yield the authentication 403,
and non-matching protocol errors yield their messages joined by ", " with 400. -/
theorem claim1_handleGraphQLError_decision_order (e : Option CombinedError) (cb : Bool) :
    (e = none →
      handleGraphQLError e cb
        = ({ message := "Unknown error occurred", statusCode := 500 }, 0))
  ∧ (∀ err ne, e = some err → err.networkError = some ne →
      ((netStatus ne = some 401 ∨ netStatus ne = some 403) →
        handleGraphQLError e cb
          = ({ message := "Token expired. Please login again.", statusCode := 403 },
             if cb then 1 else 0))
      ∧ (¬(netStatus ne = some 401 ∨ netStatus ne = some 403) →
        handleGraphQLError e cb
          = ({ message := "Network error: " ++ ne.message,
               statusCode := match netStatus ne with
                 | some n => if n = 0 then 503 else n
                 | none => 503 }, 0)))
  ∧ (∀ err, e = some err → err.networkError = none → err.graphQLErrors ≠ [] →
      (hasAuthError err.graphQLErrors = true →
        handleGraphQLError e cb
          = ({ message := "Authentication failed. Please login again.", statusCode := 403 },
             if cb then 1 else 0))
      ∧ (hasAuthError err.graphQLErrors = false →
        handleGraphQLError e cb
          = ({ message := joinMsgs err.graphQLErrors, statusCode := 400 }, 0))) := by
  refine ⟨?_, ?_, ?_⟩
  · rintro rfl
    exact handle_none_eq cb
  · rintro err ne rfl hne
    exact ⟨handle_net_auth err ne cb hne, handle_net_other err ne cb hne⟩
  · rintro err rfl hnw hgl
    exact ⟨handle_gql_auth err cb hnw hgl, handle_gql_other err cb hnw hgl⟩

/-- Witness for C1 at a concrete 403 network error that also carries a
protocol-level error: callback invoked once, result 403. -/
theorem claim1_witness :
    handleGraphQLError
        (some { networkError := some { statusCode := some 403, status := none,
                                       message := "Forbidden" },
                graphQLErrors := [{ message := "boom" }], message := "m" }) true
      = ({ message := "Token expired. Please login again.", statusCode := 403 }, 1) := by
  have h := claim1_handleGraphQLError_decision_order
    (some { networkError := some { statusCode := some 403, status := none,
                                   message := "Forbidden" },
            graphQLErrors := [{ message := "boom" }], message := "m" }) true
  exact (h.2.1 _ _ rfl rfl).1 (Or.inr (by decide))

/-- C9: on the raw-mutation paths of create and update the classifier is
called without the session-expiry callback, so the callback is never invoked
there, although the normalized status code is still 403 for 401/403 network
failures and for auth-keyword protocol errors. -/
theorem claim9_gqlMutation_no_callback (err : CombinedError) :
    (gqlMutationClassify err).2 = 0
  ∧ (∀ ne, err.networkError = some ne →
      (netStatus ne = some 401 ∨ netStatus ne = some 403) →
      (gqlMutationClassify err).1.statusCode = 403)
  ∧ (err.networkError = none → err.graphQLErrors ≠ [] →
      hasAuthError err.graphQLErrors = true →
      (gqlMutationClassify err).1.statusCode = 403) := by
  refine ⟨handle_snd_nocb (some err), ?_, ?_⟩
  · intro ne hne h
    unfold gqlMutationClassify
    rw [handle_net_auth err ne false hne h]
  · intro hnw hgl h
    unfold gqlMutationClassify
    rw [handle_gql_auth err false hnw hgl h]

/-- Witness for C9 at a concrete 403 network error: no callback invocation,
status code 403. -/
theorem claim9_witness :
    (gqlMutationClassify
        { networkError := some { statusCode := some 403, status := none, message := "Forbidden" },
          graphQLErrors := [], message := "m" }).2 = 0
  ∧ (gqlMutationClassify
        { networkError := some { statusCode := some 403, status := none, message := "Forbidden" },
          graphQLErrors := [], message := "m" }).1.statusCode = 403 := by
  have h := claim9_gqlMutation_no_callback
    { networkError := some { statusCode := some 403, status := none, message := "Forbidden" },
      graphQLErrors := [], message := "m" }
  exact ⟨h.1, h.2.1 _ rfl (Or.inr (by decide))⟩

/-! ## Association-object lemmas -/

theorem getK_setK_self {α : Type} (o : List (String × α)) (k : String) (v : α) :
    getK (setK o k v) k = some v := by
  induction o with
  | nil => simp [setK, getK]
  | cons kv t ih =>
    obtain ⟨k0, v0⟩ := kv
    by_cases h : k0 = k
    · simp [setK, h, getK]
    · simp [setK, h, getK, ih]

theorem getK_setK_other {α : Type} (o : List (String × α)) (k k2 : String) (v : α)
    (h : k2 ≠ k) : getK (setK o k2 v) k = getK o k := by
  induction o with
  | nil => simp [setK, getK, h]
  | cons kv t ih =>
    obtain ⟨k0, v0⟩ := kv
    by_cases h0 : k0 = k2
    · simp [setK, h0, getK, h]
    · by_cases h1 : k0 = k
      · simp [setK, h0, getK, h1, Ne.symm h]
      · simp [setK, h0, getK, h1, ih]

/-! ## C7: sort compilation -/

/-- Does a sorter write the sort key `f`? (truthy field equal to `f` and
truthy order). -/
def sortWrites (s : Sorter) (f : String) : Bool :=
  match s.field, s.order with
  | some g, some o => g == f && !(g == "") && !(o == "")
  | _, _ => false

theorem sortStep_not_writes (acc : List (String × String)) (s : Sorter) (f : String)
    (h : sortWrites s f = false) : getK (sortStep acc s) f = getK acc f := by
  obtain ⟨fo, oo⟩ := s
  match fo, oo with
  | none, _ => rfl
  | some g, none => rfl
  | some g, some o =>
    simp only [sortWrites] at h
    by_cases hg : g == ""
    · simp [sortStep, hg]
    · by_cases ho : o == ""
      · simp [sortStep, hg, ho]
      · simp only [hg, ho, Bool.not_false, Bool.and_true] at h
        have hne : g ≠ f := by
          intro he
          rw [he] at h
          simp at h
        simp only [sortStep, hg, ho, Bool.or_self, Bool.false_or]
        rw [if_neg (by simp [hg, ho])]
        exact getK_setK_other acc f g (upperStr o) hne

theorem foldl_sortStep_not_writes (l : List Sorter) (acc : List (String × String)) (f : String)
    (h : ∀ s ∈ l, sortWrites s f = false) :
    getK (l.foldl sortStep acc) f = getK acc f := by
  induction l generalizing acc with
  | nil => rfl
  | cons s t ih =>
    rw [List.foldl_cons, ih _ (fun x hx => h x (List.mem_cons_of_mem s hx)),
        sortStep_not_writes acc s f (h s (List.mem_cons_self s t))]

/-- C7: sorters are merged into one mapping keyed by field name, orders
upper-cased, and on duplicate field names the last valid entry in list order
wins; in particular sorting by price asc then price desc yields
`{price: "DESC"}`. -/
theorem claim7_sort_last_wins :
    (∀ (pre post : List Sorter) (f o : String),
      (f == "") = false → (o == "") = false →
      (∀ s ∈ post, sortWrites s f = false) →
      getK (compileSort (pre ++ { field := some f, order := some o } :: post)) f
        = some (upperStr o))
  ∧ compileSort [{ field := some "price", order := some "asc" },
                 { field := some "price", order := some "desc" }]
      = [("price", "DESC")] := by
  constructor
  · intro pre post f o hf ho hpost
    unfold compileSort
    rw [List.foldl_append, List.foldl_cons, foldl_sortStep_not_writes post _ f hpost]
    simp only [sortStep, hf, ho, Bool.or_self, Bool.false_or]
    rw [if_neg (by simp [hf, ho])]
    exact getK_setK_self _ f (upperStr o)
  · rfl

/-- Witness for C7: price asc followed by price desc maps price to DESC. -/
theorem claim7_witness :
    getK (compileSort ([{ field := some "price", order := some "asc" }] ++
           { field := some "price", order := some "desc" } :: [])) "price"
      = some (upperStr "desc") := by
  exact claim7_sort_last_wins.1 [{ field := some "price", order := some "asc" }] []
    "price" "desc" rfl rfl (by intro s hs; cases hs)

/-! ## C2: operation-boundary catch handler -/

theorem catchHandler_eq (msg : String) (e : RVal)
    (hn : e ≠ RVal.rnull) (hu : e ≠ RVal.undef) :
    catchHandler msg e
      = match propGetR e "statusCode" with
        | RVal.undef =>
          some (RVal.obj
            [("message", if rTruthy (propGetR e "message") then propGetR e "message"
                         else RVal.str msg),
             ("statusCode", RVal.num 500)])
        | _ => some e := by
  cases e with
  | undef => exact absurd rfl hu
  | rnull => exact absurd rfl hn
  | str s => rfl
  | num n => rfl
  | bool b => rfl
  | arr l => rfl
  | obj fs => rfl

/-- C2 counterexample: a rejection object whose `statusCode` is the string
"oops" (defined but not numeric) is passed through unchanged by the catch
boundary instead of being converted to a `{message, statusCode: 500}`
rejection, contradicting the claim that any exception without a numeric
status code is re-wrapped. -/
theorem claim2_counterexample :
    catchHandler "Failed to fetch list data"
        (RVal.obj [("statusCode", RVal.str "oops"), ("message", RVal.str "m")])
      = some (RVal.obj [("statusCode", RVal.str "oops"), ("message", RVal.str "m")])
  ∧ propGetR (RVal.obj [("statusCode", RVal.str "oops"), ("message", RVal.str "m")])
        "statusCode" = RVal.str "oops"
  ∧ RVal.str "oops" ≠ RVal.num 500 :=
  ⟨rfl, rfl, fun h => RVal.noConfusion h⟩

/-- C2 (amended): a caught value whose `statusCode` property is defined (of
any type, numeric or not) is re-rejected as that exact value; a caught value
(other than null or undefined, whose property access itself throws) with no
defined `statusCode` is converted to
`{message: error?.message || default, statusCode: 500}`. -/
theorem claim2_catch_boundary_amended (msg : String) (e : RVal)
    (hn : e ≠ RVal.rnull) (hu : e ≠ RVal.undef) :
    (propGetR e "statusCode" ≠ RVal.undef → catchHandler msg e = some e)
  ∧ (propGetR e "statusCode" = RVal.undef →
      catchHandler msg e
        = some (RVal.obj
            [("message", if rTruthy (propGetR e "message") then propGetR e "message"
                         else RVal.str msg),
             ("statusCode", RVal.num 500)])) := by
  constructor
  · intro h
    rw [catchHandler_eq msg e hn hu]
    cases hsc : propGetR e "statusCode" with
    | undef => exact absurd hsc h
    | rnull => rfl
    | str s => rfl
    | num n => rfl
    | bool b => rfl
    | arr l => rfl
    | obj fs => rfl
  · intro h
    rw [catchHandler_eq msg e hn hu, h]

/-- Witness for C2 (amended): a numeric-statusCode rejection passes through,
and a plain error object is wrapped with status 500. -/
theorem claim2_witness :
    catchHandler "Failed to fetch list data"
        (RVal.obj [("message", RVal.str "m"), ("statusCode", RVal.num 403)])
      = some (RVal.obj [("message", RVal.str "m"), ("statusCode", RVal.num 403)])
  ∧ catchHandler "Failed to fetch list data" (RVal.obj [("message", RVal.str "boom")])
      = some (RVal.obj [("message", RVal.str "boom"), ("statusCode", RVal.num 500)]) := by
  constructor
  · exact (claim2_catch_boundary_amended "Failed to fetch list data"
      (RVal.obj [("message", RVal.str "m"), ("statusCode", RVal.num 403)])
      (fun h => RVal.noConfusion h) (fun h => RVal.noConfusion h)).1
      (fun h => RVal.noConfusion h)
  · exact (claim2_catch_boundary_amended "Failed to fetch list data"
      (RVal.obj [("message", RVal.str "boom")])
      (fun h => RVal.noConfusion h) (fun h => RVal.noConfusion h)).2 rfl

/-! ## C3: list total extraction -/

theorem getListNormalize_total (qk : Option String) (r : String) (d : Option RObj) :
    (getListNormalize false qk r d).map Prod.snd = listTotalOf r d := by
  cases h : listTotalOf r d <;> simp [getListNormalize, h]

/-- C3 counterexample: on the caller-supplied-document path (`meta.gqlQuery`),
getList reports the length of the extracted array as the total — here 1 —
even though the response carries a count payload with total 57. -/
theorem claim3_counterexample :
    getListNormalize true (some "productList") "product"
        (some [("productList", RVal.arr [RVal.obj [("id", RVal.str "1")]]),
               ("productListCount", RVal.obj [("total", RVal.num 57)])])
      = some (RVal.arr [RVal.obj [("id", RVal.str "1")]], RVal.num 1)
  ∧ RVal.num 1 ≠ RVal.num 57 := by
  refine ⟨rfl, fun h => ?_⟩
  injection h with h2
  exact absurd h2 (by decide)

/-- C3 (amended): on the synthesized-document path (no `meta.gqlQuery`) the
returned total is the backend-reported count: it depends only on the count
selection's value, equals its `total` field when that field is present
(defaulting to 0 when absent), independently of the returned data array; on
the caller-supplied-document path the total is the extracted array's length. -/
theorem claim3_total_from_count_amended :
    (∀ (qk : Option String) (r : String) (d1 d2 : Option RObj),
      countValOf r d1 = countValOf r d2 →
      (getListNormalize false qk r d1).map Prod.snd
        = (getListNormalize false qk r d2).map Prod.snd)
  ∧ (∀ (qk : Option String) (r : String) (d : Option RObj) (fs : RObj),
      countValOf r d = RVal.obj fs →
      (getListNormalize false qk r d).map Prod.snd
        = some (if (getK fs "total").isSome then rGetV fs "total" else RVal.num 0))
  ∧ (∀ (qk : Option String) (r : String) (d : Option RObj),
      countValOf r d = RVal.undef →
      (getListNormalize false qk r d).map Prod.snd = some (RVal.num 0))
  ∧ getListNormalize false none "product"
      (some [("productList", RVal.arr [RVal.obj [("id", RVal.str "1")]]),
             ("productListCount", RVal.obj [("total", RVal.num 57)])])
      = some (RVal.arr [RVal.obj [("id", RVal.str "1")]], RVal.num 57) := by
  refine ⟨?_, ?_, ?_, rfl⟩
  · intro qk r d1 d2 h
    rw [getListNormalize_total, getListNormalize_total]
    unfold listTotalOf
    rw [h]
  · intro qk r d fs h
    rw [getListNormalize_total]
    unfold listTotalOf
    rw [h]
  · intro qk r d h
    rw [getListNormalize_total]
    unfold listTotalOf
    rw [h]

/-- Witness for C3 (amended): with list payload of length 1 and count total
57, the synthesized path returns total 57. -/
theorem claim3_witness :
    (getListNormalize false none "product"
        (some [("productList", RVal.arr [RVal.obj [("id", RVal.str "1")]]),
               ("productListCount", RVal.obj [("total", RVal.num 57)])])).map Prod.snd
      = some (if (getK [("total", RVal.num 57)] "total").isSome
              then rGetV [("total", RVal.num 57)] "total" else RVal.num 0) := by
  exact claim3_total_from_count_amended.2.1 none "product"
    (some [("productList", RVal.arr [RVal.obj [("id", RVal.str "1")]]),
           ("productListCount", RVal.obj [("total", RVal.num 57)])])
    [("total", RVal.num 57)] rfl

/-! ## C8 and C10: payload-embedded errors arrays -/

theorem deleteOne_errors_reject (resource : String) (cb : Bool) (d : Option RObj)
    (items : List RVal) (h : errorsValOf d = RVal.arr items) :
    deleteOneOutcome resource none cb d
      = (Except.error { message := joinErrMessages items, statusCode := 400 }, 0) := by
  unfold deleteOneOutcome
  rw [h]

theorem custom_errors_reject (cb : Bool) (d : Option RObj)
    (items : List RVal) (h : errorsValOf d = RVal.arr items) :
    customOutcome none cb d
      = (Except.error { message := joinErrMessages items, statusCode := 400 }, 0) := by
  unfold customOutcome
  rw [h]

/-- C8: when the transport reports no error but the data payload carries a
non-empty top-level `errors` array, deleteOne and custom reject with the
errors' messages joined by ", " and status code 400 instead of succeeding; in
particular `data.errors = [{message: "1 relations exist"}]` rejects with
`{message: "1 relations exist", statusCode: 400}`. -/
theorem claim8_data_errors_rejection :
    (∀ (resource : String) (cb : Bool) (d : Option RObj) (items : List RVal),
      errorsValOf d = RVal.arr items → items ≠ [] →
      deleteOneOutcome resource none cb d
        = (Except.error { message := joinErrMessages items, statusCode := 400 }, 0))
  ∧ (∀ (cb : Bool) (d : Option RObj) (items : List RVal),
      errorsValOf d = RVal.arr items → items ≠ [] →
      customOutcome none cb d
        = (Except.error { message := joinErrMessages items, statusCode := 400 }, 0))
  ∧ deleteOneOutcome "product" none true
      (some [("deleteProduct", RVal.rnull),
             ("errors", RVal.arr [RVal.obj [("message", RVal.str "1 relations exist")]])])
      = (Except.error { message := "1 relations exist", statusCode := 400 }, 0) := by
  refine ⟨?_, ?_, rfl⟩
  · intro resource cb d items h _
    exact deleteOne_errors_reject resource cb d items h
  · intro cb d items h _
    exact custom_errors_reject cb d items h

/-- Witness for C8 at the concrete relation-conflict delete response. -/
theorem claim8_witness :
    deleteOneOutcome "label" none false
        (some [("errors", RVal.arr [RVal.obj [("message", RVal.str "1 relations exist")]])])
      = (Except.error
          { message := joinErrMessages [RVal.obj [("message", RVal.str "1 relations exist")]],
            statusCode := 400 }, 0) := by
  exact claim8_data_errors_rejection.1 "label" false
    (some [("errors", RVal.arr [RVal.obj [("message", RVal.str "1 relations exist")]])])
    [RVal.obj [("message", RVal.str "1 relations exist")]] rfl
    (List.cons_ne_nil _ _)

/-- C10: with no transport error, the presence of any array under the data
payload's `errors` key causes a 400 rejection (the source checks only
`Array.isArray`, not emptiness); for the empty array the rejection message is
the empty string. -/
theorem claim10_empty_errors_array :
    (∀ (resource : String) (cb : Bool) (d : Option RObj) (items : List RVal),
      errorsValOf d = RVal.arr items →
      deleteOneOutcome resource none cb d
        = (Except.error { message := joinErrMessages items, statusCode := 400 }, 0)
      ∧ customOutcome none cb d
        = (Except.error { message := joinErrMessages items, statusCode := 400 }, 0))
  ∧ (∀ (resource : String) (cb : Bool) (d : Option RObj),
      errorsValOf d = RVal.arr [] →
      deleteOneOutcome resource none cb d
        = (Except.error { message := "", statusCode := 400 }, 0)
      ∧ customOutcome none cb d
        = (Except.error { message := "", statusCode := 400 }, 0)) := by
  constructor
  · intro resource cb d items h
    exact ⟨deleteOne_errors_reject resource cb d items h,
           custom_errors_reject cb d items h⟩
  · intro resource cb d h
    exact ⟨deleteOne_errors_reject resource cb d [] h,
           custom_errors_reject cb d [] h⟩

/-- Witness for C10 at a concrete empty errors array. -/
theorem claim10_witness :
    deleteOneOutcome "product" none true (some [("errors", RVal.arr [])])
      = (Except.error { message := "", statusCode := 400 }, 0)
  ∧ customOutcome none true (some [("errors", RVal.arr [])])
      = (Except.error { message := "", statusCode := 400 }, 0) := by
  exact claim10_empty_errors_array.2 "product" true (some [("errors", RVal.arr [])]) rfl

/-! ## C4: reserved-key routing -/

/-- C4 counterexample: a filter with field "_key" but operator "or" and an
array value is captured by the OR branch: it contributes an OR group to
`where` and nothing to the key condition, contradicting the claim that every
"_key"-field condition is routed exclusively into the key condition. -/
theorem claim4_counterexample :
    compileFilters [Cond.mk (some "_key") (some "or")
        (FVal.arr [Cond.mk (some "x") (some "eq") (FVal.str "1")])]
      = some { whereO := [("OR", OVal.node [("x", OVal.node [("eq", OVal.prim (FVal.str "1"))])])],
               keyCond := none, relWhere := none }
  ∧ [("OR", OVal.node [("x", OVal.node [("eq", OVal.prim (FVal.str "1"))])])] ≠ ([] : WObj)
  ∧ (none : Option OVal) = none :=
  ⟨rfl, List.cons_ne_nil _ _, rfl⟩

/-- C4 (amended): a condition whose field is exactly "_key" and which is not
captured by a composite branch (operator eq/or/and with an array value) is
routed exclusively into the key condition as `{operator || "eq": value}`: the
processed form is `{_key: ...}` and the dispatch step stores it as the key
condition, leaving `where` and the relation condition untouched. -/
theorem claim4_key_routing_amended (st : FilterOut) (o : Option String) (v : FVal)
    (h : (isArr v && (o == some "eq" || o == some "or" || o == some "and")) = false) :
    processFilter (Cond.mk (some "_key") o v)
      = some [("_key", OVal.node [(opOrEq o, OVal.prim v)])]
  ∧ stepFilter st [("_key", OVal.node [(opOrEq o, OVal.prim v)])]
      = { st with keyCond := some (OVal.node [(opOrEq o, OVal.prim v)]) } := by
  constructor
  · by_cases hA : isArr v
    · rw [hA, Bool.true_and] at h
      simp only [Bool.or_eq_false_iff] at h
      simp [processFilter, h.1.1, h.1.2, h.2]
    · simp only [Bool.not_eq_true] at hA
      simp [processFilter, hA]
  · simp [stepFilter, truthyGet, getK, jsGetW, truthyO]

/-- Witness for C4 (amended) at the concrete filter
`{field: "_key", operator: "eq", value: "abc"}`. -/
theorem claim4_witness :
    processFilter (Cond.mk (some "_key") (some "eq") (FVal.str "abc"))
      = some [("_key", OVal.node [(opOrEq (some "eq"), OVal.prim (FVal.str "abc"))])]
  ∧ stepFilter { whereO := [], keyCond := none, relWhere := none }
        [("_key", OVal.node [(opOrEq (some "eq"), OVal.prim (FVal.str "abc"))])]
      = { whereO := [], keyCond := some (OVal.node [(opOrEq (some "eq"),
            OVal.prim (FVal.str "abc"))]), relWhere := none } := by
  exact claim4_key_routing_amended { whereO := [], keyCond := none, relWhere := none }
    (some "eq") (FVal.str "abc") rfl

/-! ## C6: silent skipping of partial conditions -/

/-- Is the condition missing its operator (falsy) or carrying an undefined
value? (the guard `operator && value !== undefined` fails). -/
def missingOpOrVal (c : Cond) : Bool :=
  !(truthyS c.op) || isUndef c.value

/-- Does the condition target a regular field: not the reserved "_key" and not
a relation path? -/
def plainFieldC (c : Cond) : Bool :=
  match c.field with
  | some s => !(s == "_key") && !(hasSubstr s "relation.")
  | none => true

theorem processFilter_skip (c : Cond) (hm : missingOpOrVal c = true)
    (hf : plainFieldC c = true) : processFilter c = some [] := by
  obtain ⟨f, o, v⟩ := c
  simp only [missingOpOrVal, Cond.op, Cond.value, Bool.or_eq_true, Bool.not_eq_true'] at hm
  simp only [plainFieldC, Cond.field] at hf
  have h4 : (f == some "_key") = false := by
    cases f with
    | none => rfl
    | some s =>
      simp only [Bool.and_eq_true, Bool.not_eq_true'] at hf
      exact hf.1
  have h5 : (truthyS f && hasSubstr (strOf f) "relation.") = false := by
    cases f with
    | none => rfl
    | some s =>
      simp only [Bool.and_eq_true, Bool.not_eq_true'] at hf
      show (truthyS (some s) && hasSubstr s "relation.") = false
      rw [hf.2, Bool.and_false]
  rcases hm with hm | hm
  · have hnil : ∀ t : String, t ≠ "" → (o == some t) = false := by
      intro t ht
      cases o with
      | none => rfl
      | some s =>
        have hs : s = "" := by
          cases hb : (s == "") with
          | true => exact eq_of_beq hb
          | false =>
            simp only [truthyS] at hm
            rw [hb] at hm
            exact Bool.noConfusion hm
        subst hs
        have : ("" == t) = false := by
          cases hb : ("" == t) with
          | false => rfl
          | true => exact absurd (eq_of_beq hb).symm ht
        exact this
    have h1 : (o == some "eq" && isArr v) = false := by
      rw [hnil "eq" (by decide), Bool.false_and]
    have h2 : (o == some "or" && isArr v) = false := by
      rw [hnil "or" (by decide), Bool.false_and]
    have h3 : (o == some "and" && isArr v) = false := by
      rw [hnil "and" (by decide), Bool.false_and]
    have h6 : (truthyS o && !(isUndef v)) = false := by
      rw [hm, Bool.false_and]
    simp [processFilter, h1, h2, h3, h4, h5, h6]
  · have hv : v = FVal.undef := by
      cases v with
      | undef => rfl
      | str s => exact Bool.noConfusion hm
      | num n => exact Bool.noConfusion hm
      | bool b => exact Bool.noConfusion hm
      | arr l => exact Bool.noConfusion hm
    subst hv
    have h1 : (o == some "eq" && isArr FVal.undef) = false := Bool.and_false _
    have h2 : (o == some "or" && isArr FVal.undef) = false := Bool.and_false _
    have h3 : (o == some "and" && isArr FVal.undef) = false := Bool.and_false _
    have h6 : (truthyS o && !(isUndef FVal.undef)) = false := Bool.and_false _
    simp [processFilter, h1, h2, h3, h4, h5, h6]

theorem stepFilter_nil (st : FilterOut) : stepFilter st [] = st := rfl

theorem compileAux_skip (fs : List Cond) (st : FilterOut)
    (h : ∀ c ∈ fs, missingOpOrVal c = true ∧ plainFieldC c = true) :
    compileAux st fs = some st := by
  induction fs with
  | nil => rfl
  | cons c t ih =>
    have hc := h c (List.mem_cons_self c t)
    simp only [compileAux, processFilter_skip c hc.1 hc.2]
    rw [stepFilter_nil]
    exact ih (fun x hx => h x (List.mem_cons_of_mem c hx))

/-- C6 counterexample: the reserved-key condition `{field: "_key"}` with
operator and value missing is NOT silently skipped: it still produces the key
condition `{eq: undefined}`, so a list containing only it compiles differently
from the empty list. -/
theorem claim6_counterexample :
    compileFilters [Cond.mk (some "_key") none FVal.undef]
      = some { whereO := [], keyCond := some (OVal.node [("eq", OVal.prim FVal.undef)]),
               relWhere := none }
  ∧ compileFilters [] = some { whereO := [], keyCond := none, relWhere := none }
  ∧ (some (OVal.node [("eq", OVal.prim FVal.undef)]) : Option OVal) ≠ none :=
  ⟨rfl, rfl, fun h => Option.noConfusion h⟩

/-- C6 (amended): a condition on a regular field (not the reserved "_key" and
not a relation path) that is missing its operator or has an undefined value is
silently skipped - it contributes nothing and raises no error - and a list of
only such conditions compiles exactly like the empty list. (A "_key" condition
still produces a key condition, and a relation-path condition still builds the
relation skeleton, even when operator or value is missing.) -/
theorem claim6_silent_skip_amended :
    (∀ c : Cond, missingOpOrVal c = true → plainFieldC c = true →
      processFilter c = some [])
  ∧ (∀ fs : List Cond, (∀ c ∈ fs, missingOpOrVal c = true ∧ plainFieldC c = true) →
      compileFilters fs = compileFilters []) := by
  constructor
  · exact processFilter_skip
  · intro fs h
    unfold compileFilters
    rw [compileAux_skip fs _ h]
    rfl

/-- Witness for C6 (amended) at the partial filter `{field: "name"}`. -/
theorem claim6_witness :
    compileFilters [Cond.mk (some "name") none FVal.undef] = compileFilters [] := by
  exact claim6_silent_skip_amended.2 [Cond.mk (some "name") none FVal.undef]
    (by
      intro c hc
      rw [List.mem_singleton] at hc
      subst hc
      exact ⟨rfl, rfl⟩)

/-! ## C5: conditional variable declarations -/

/-- Does the declaration list contain a declaration beginning with `marker`?
(markers include the trailing ": " so `$_key` and `$_keyCount` are distinct). -/
def declListHas (decls : List String) (marker : String) : Bool :=
  decls.any (fun s => leadsWith marker.data s.data)

theorem declListHas_key (resource : String) (hk hr : Bool) :
    declListHas (listQueryVarDecls resource hk hr) "$_key: " = hk := by
  cases hk <;> cases hr <;> rfl

theorem declListHas_keyCount (resource : String) (hk hr : Bool) :
    declListHas (listQueryVarDecls resource hk hr) "$_keyCount: " = hk := by
  cases hk <;> cases hr <;> rfl

theorem declListHas_rel (resource : String) (hk hr : Bool) :
    declListHas (listQueryVarDecls resource hk hr) "$relationWhere: " = hr := by
  cases hk <;> cases hr <;> rfl

theorem declListHas_relCount (resource : String) (hk hr : Bool) :
    declListHas (listQueryVarDecls resource hk hr) "$relationWhereCount: " = hr := by
  cases hk <;> cases hr <;> rfl

theorem queryArgs_key (hk hr : Bool) :
    ("_key: $_key" ∈ listQueryArgs hk hr) ↔ hk = true := by
  cases hk <;> cases hr <;> decide

theorem queryArgs_rel (hk hr : Bool) :
    ("relation: $relationWhere" ∈ listQueryArgs hk hr) ↔ hr = true := by
  cases hk <;> cases hr <;> decide

theorem countArgs_key (hk hr : Bool) :
    ("_key: $_keyCount" ∈ listCountArgs hk hr) ↔ hk = true := by
  cases hk <;> cases hr <;> decide

theorem countArgs_rel (hk hr : Bool) :
    ("relation: $relationWhereCount" ∈ listCountArgs hk hr) ↔ hr = true := by
  cases hk <;> cases hr <;> decide

/-- A plain field condition: not a composite (eq/or/and with an array value),
its field present and neither the reserved "_key" nor a relation path, and not
turning into one after the "data." strip. -/
def plainFieldFilter (c : Cond) : Bool :=
  match c with
  | Cond.mk f o v =>
    match f with
    | some s =>
      !(isArr v && (o == some "eq" || o == some "or" || o == some "and"))
      && !(s == "_key") && !(hasSubstr s "relation.")
      && !(stripData s == "_key") && !(stripData s == "relation")
    | none => false

theorem and_or3_false : ∀ (a b1 b2 b3 : Bool),
    (a && (b1 || b2 || b3)) = false →
    (b1 && a) = false ∧ (b2 && a) = false ∧ (b3 && a) = false := by
  decide

theorem plain_processFilter (c : Cond) (h : plainFieldFilter c = true) :
    ∃ p, processFilter c = some p ∧ truthyGet p "_key" = false
         ∧ truthyGet p "relation" = false := by
  obtain ⟨f, o, v⟩ := c
  match f with
  | none => exact absurd h (by simp [plainFieldFilter])
  | some s =>
    simp only [plainFieldFilter, Bool.and_eq_true, Bool.not_eq_true'] at h
    obtain ⟨⟨⟨⟨hcomp, hkey⟩, hrel⟩, hskey⟩, hsrel⟩ := h
    obtain ⟨h1, h2, h3⟩ := and_or3_false (isArr v) (o == some "eq") (o == some "or")
      (o == some "and") hcomp
    have h4 : ((some s : Option String) == some "_key") = false := hkey
    have h5 : (truthyS (some s) && hasSubstr (strOf (some s)) "relation.") = false := by
      show (truthyS (some s) && hasSubstr s "relation.") = false
      rw [hrel, Bool.and_false]
    by_cases hg : (truthyS o && !(isUndef v)) = true
    · refine ⟨[(stripData s, OVal.node [(strOf o, OVal.prim v)])], ?_, ?_, ?_⟩
      · simp [processFilter, h1, h2, h3, h4, h5, hg]
      · simp [truthyGet, getK, ne_of_beq_false hskey]
      · simp [truthyGet, getK, ne_of_beq_false hsrel]
    · refine ⟨[], ?_, rfl, rfl⟩
      simp only [Bool.not_eq_true] at hg
      simp [processFilter, h1, h2, h3, h4, h5, hg]

theorem stepFilter_preserves (st : FilterOut) (p : WObj)
    (h1 : truthyGet p "_key" = false) (h2 : truthyGet p "relation" = false) :
    (stepFilter st p).keyCond = st.keyCond ∧ (stepFilter st p).relWhere = st.relWhere := by
  unfold stepFilter
  rw [h1, h2, if_neg Bool.false_ne_true, if_neg Bool.false_ne_true]
  constructor
  · split
    · rfl
    · split
      · rfl
      · rfl
  · split
    · rfl
    · split
      · rfl
      · rfl

theorem compileAux_plain : ∀ (fs : List Cond) (st fo : FilterOut),
    (∀ c ∈ fs, plainFieldFilter c = true) →
    compileAux st fs = some fo →
    fo.keyCond = st.keyCond ∧ fo.relWhere = st.relWhere := by
  intro fs
  induction fs with
  | nil =>
    intro st fo h hc
    simp only [compileAux, Option.some.injEq] at hc
    subst hc
    exact ⟨rfl, rfl⟩
  | cons c t ih =>
    intro st fo h hc
    obtain ⟨p, hp, hpk, hpr⟩ := plain_processFilter c (h c (List.mem_cons_self c t))
    simp only [compileAux, hp] at hc
    have hstep := stepFilter_preserves st p hpk hpr
    have hrec := ih (stepFilter st p) fo (fun x hx => h x (List.mem_cons_of_mem c hx)) hc
    exact ⟨hrec.1.trans hstep.1, hrec.2.trans hstep.2⟩

/-- C5: in the synthesized getList document, the `$_key` and `$relationWhere`
variable declarations (and their Count counterparts) appear in the
declaration list, the corresponding arguments appear in the list and count
selections, and the corresponding entries appear in the variables payload, if
and only if the compiled key condition (respectively relation condition) is
non-null; when every filter is a plain field condition neither appears
anywhere. -/
theorem claim5_conditional_declarations (resource : String) (fs : List Cond)
    (fo : FilterOut) (rl : Option WObj) (srt : Option (List Sorter))
    (pag : Option Pagination) (h : compileFilters fs = some fo) :
    (declListHas (listQueryVarDecls resource fo.keyCond.isSome fo.relWhere.isSome)
        "$_key: " = fo.keyCond.isSome)
  ∧ (declListHas (listQueryVarDecls resource fo.keyCond.isSome fo.relWhere.isSome)
        "$_keyCount: " = fo.keyCond.isSome)
  ∧ (declListHas (listQueryVarDecls resource fo.keyCond.isSome fo.relWhere.isSome)
        "$relationWhere: " = fo.relWhere.isSome)
  ∧ (declListHas (listQueryVarDecls resource fo.keyCond.isSome fo.relWhere.isSome)
        "$relationWhereCount: " = fo.relWhere.isSome)
  ∧ (("_key: $_key" ∈ listQueryArgs fo.keyCond.isSome fo.relWhere.isSome)
        ↔ fo.keyCond.isSome = true)
  ∧ (("relation: $relationWhere" ∈ listQueryArgs fo.keyCond.isSome fo.relWhere.isSome)
        ↔ fo.relWhere.isSome = true)
  ∧ (("_key: $_keyCount" ∈ listCountArgs fo.keyCond.isSome fo.relWhere.isSome)
        ↔ fo.keyCond.isSome = true)
  ∧ (("relation: $relationWhereCount" ∈ listCountArgs fo.keyCond.isSome fo.relWhere.isSome)
        ↔ fo.relWhere.isSome = true)
  ∧ ((buildListVars fo rl srt pag).keyVar.isSome = fo.keyCond.isSome)
  ∧ ((buildListVars fo rl srt pag).keyCountVar.isSome = fo.keyCond.isSome)
  ∧ ((buildListVars fo rl srt pag).relWhereVar.isSome = fo.relWhere.isSome)
  ∧ ((buildListVars fo rl srt pag).relWhereCountVar.isSome = fo.relWhere.isSome)
  ∧ ((∀ c ∈ fs, plainFieldFilter c = true) → fo.keyCond = none ∧ fo.relWhere = none) := by
  refine ⟨declListHas_key resource _ _, declListHas_keyCount resource _ _,
          declListHas_rel resource _ _, declListHas_relCount resource _ _,
          queryArgs_key _ _, queryArgs_rel _ _, countArgs_key _ _, countArgs_rel _ _,
          rfl, rfl, rfl, rfl, ?_⟩
  intro hp
  unfold compileFilters at h
  exact compileAux_plain fs { whereO := [], keyCond := none, relWhere := none } fo hp h

/-- Witness for C5: compiling the single plain filter name = "x" declares
neither `$_key` nor the relation variables, and both compiled conditions are
null. -/
theorem claim5_witness :
    declListHas
        (listQueryVarDecls "product"
          ({ whereO := [("name", OVal.node [("eq", OVal.prim (FVal.str "x"))])],
             keyCond := none, relWhere := none } : FilterOut).keyCond.isSome
          ({ whereO := [("name", OVal.node [("eq", OVal.prim (FVal.str "x"))])],
             keyCond := none, relWhere := none } : FilterOut).relWhere.isSome)
        "$_key: "
      = ({ whereO := [("name", OVal.node [("eq", OVal.prim (FVal.str "x"))])],
           keyCond := none, relWhere := none } : FilterOut).keyCond.isSome
  ∧ ({ whereO := [("name", OVal.node [("eq", OVal.prim (FVal.str "x"))])],
       keyCond := none, relWhere := none } : FilterOut).keyCond = none
  ∧ ({ whereO := [("name", OVal.node [("eq", OVal.prim (FVal.str "x"))])],
       keyCond := none, relWhere := none } : FilterOut).relWhere = none := by
  have h := claim5_conditional_declarations "product"
    [Cond.mk (some "name") (some "eq") (FVal.str "x")]
    { whereO := [("name", OVal.node [("eq", OVal.prim (FVal.str "x"))])],
      keyCond := none, relWhere := none } none none none rfl
  have hplain : ∀ c ∈ [Cond.mk (some "name") (some "eq") (FVal.str "x")],
      plainFieldFilter c = true := by
    intro c hc
    rw [List.mem_singleton] at hc
    subst hc
    rfl
  exact ⟨h.1, h.2.2.2.2.2.2.2.2.2.2.2.2 hplain⟩

end Apito
